import Mathlib

/-!
# Verification of the Hdl21 core: Module attribute routing and Slice resolution

Shallow embedding of `src/hdl21/module.py` and `src/hdl21/slice.py`.

Python integers are modelled as `Int`; Python `//` and `%` are floor
division and floor modulus, i.e. `Int.fdiv` and `Int.fmod`.
Python `dict`s keyed by attribute names are modelled as functions
`Option String → Option _` (Python permits `None` as a dict key, and
`val.name` is an `Optional[str]`).
-/

/-! ## Definitions: the embedded program -/

/-- Error taxonomy of the embedded code: each constructor stands for one
`raise` site in `module.py` / `slice.py`. -/
inductive Err
  | outOfBounds
  | zeroStep
  | anonymousAttr
  | namingConflict
  | protectedAttr
  | paramTypeMismatch
deriving DecidableEq

/-- Modelled from the spec: `Visibility` (from `hdl21.signal`, not under
`src/`) as used by the routing code; only the `PORT`-vs-other distinction
is observable in `module.py`. -/
inductive Visibility
  | port
  | internal
deriving DecidableEq

/-- Modelled from the spec: the Signal-like collaborator contract of spec
section 6 — exposes `name` (mutable, nullable), `width` (integer), `vis`. -/
structure Signal where
  name : Option String
  vis : Visibility
  width : Int
deriving DecidableEq

/-- A Python index passed to square brackets: `Union[int, slice]`.
A Python `slice` carries optional `start`, `stop`, `step` fields. -/
inductive SliceIndex
  | int (i : Int)
  | range (start stop step : Option Int)
deriving DecidableEq

/-- `Slice`: parent connectable plus the raw Python index.
`oid` models the CPython object identity `id(self)` used by
`Slice.__eq__` / `Slice.__hash__` (identity semantics). -/
structure Slice where
  oid : Nat
  parent : Signal
  index : SliceIndex
deriving DecidableEq

/-- `SliceInner`: resolved attributes of a `Slice` (`top` exclusive,
`bot` inclusive, Python-convention `step`, `width`). -/
structure SliceInner where
  top : Int
  bot : Int
  step : Option Int
  width : Int
deriving DecidableEq

/-- Embedding of `_slice_inner` (`slice.py`, lines 94-164).
Mirrors the source exactly: the out-of-bounds check `index >= parent.width`
runs before negative-index normalization; Python `%` is `Int.fmod`,
Python `//` is `Int.fdiv`, Python `abs` is `abs`. -/
def _slice_inner (slize : Slice) : Except Err SliceInner :=
  let w := slize.parent.width
  match slize.index with
  | .int index =>
      if w ≤ index then .error .outOfBounds
      else
        let index := if index < 0 then index + w else index
        .ok ⟨index + 1, index, none, 1⟩
  | .range start stop step =>
      let stepsz := step.getD 1
      if stepsz = 0 then .error .zeroStep
      else if stepsz < 0 then
        let top := match start with
          | none => w
          | some s => if 0 ≤ s then s + 1 else w + s + 1
        let bot := match stop with
          | none => 0
          | some s => if 0 ≤ s then s + 1 else w + s + 1
        let bot := bot + Int.fmod (top - bot) (abs stepsz)
        .ok ⟨top, bot, step, Int.fdiv (top - bot) stepsz⟩
      else
        let top := match stop with
          | none => w
          | some s => if 0 ≤ s then s else w + s
        let bot := match start with
          | none => 0
          | some s => if 0 ≤ s then s else w + s
        let top := top - Int.fmod (top - bot) stepsz
        .ok ⟨top, bot, step, Int.fdiv (top - bot) stepsz⟩

/-- A `Slice` over an anonymous internal signal of width `w`. -/
def sliceOf (w : Int) (idx : SliceIndex) : Slice :=
  ⟨0, ⟨none, Visibility.internal, w⟩, idx⟩

/-- The integer-index normalization performed by `_slice_inner`:
negative indices count from the end of the parent. -/
def normIdx (w i : Int) : Int :=
  if i < 0 then i + w else i

/-- Modelled from the spec: the non-Signal `ModuleAttr` collaborator types
(`Instance`, `InstanceArray`, `InstanceBundle` from `hdl21.instance`,
`BundleInstance` from `hdl21.bundle`, none under `src/`) expose only a
mutable nullable `name`; together with `Signal` they form the closed
variant set `ModuleAttr` that `module.py` routes on. -/
inductive ModuleAttr
  | signal (s : Signal)
  | inst (name : Option String)
  | instArray (name : Option String)
  | instBundle (name : Option String)
  | bundleInst (name : Option String)
deriving DecidableEq

/-- The `name` attribute every `ModuleAttr` variant carries. -/
def ModuleAttr.name : ModuleAttr → Option String
  | .signal s => s.name
  | .inst n => n
  | .instArray n => n
  | .instBundle n => n
  | .bundleInst n => n

/-- Mutation `val.name = n` on a `ModuleAttr`. -/
def ModuleAttr.withName : ModuleAttr → Option String → ModuleAttr
  | .signal s, n => .signal { s with name := n }
  | .inst _, n => .inst n
  | .instArray _, n => .instArray n
  | .instBundle _, n => .instBundle n
  | .bundleInst _, n => .bundleInst n

/-- A Python `dict` from attribute names to `ModuleAttr`s
(`None` is a legal dict key, hence `Option String`). -/
def NameMap : Type := Option String → Option ModuleAttr

/-- `d[k] = v` on a name-keyed dict. -/
def NameMap.update (m : NameMap) (k : Option String) (v : ModuleAttr) : NameMap :=
  fun k2 => if k2 = k then some v else m k2

/-- The mutable state of an `hdl21.Module`: its name, the six type-based
sub-collections, and `namespace` (field `ns` here; `namespace` is a Lean
keyword), their combination. -/
structure HdlModule where
  name : Option String
  ports : NameMap
  signals : NameMap
  instances : NameMap
  instarrays : NameMap
  instbundles : NameMap
  bundles : NameMap
  ns : NameMap

/-- `Module.__init__`: all collections start empty. -/
def HdlModule.new (name : Option String) : HdlModule :=
  ⟨name, fun _ => none, fun _ => none, fun _ => none, fun _ => none,
    fun _ => none, fun _ => none, fun _ => none⟩

/-- Embedding of the module-level function `_add` (`module.py`, lines
385-429): sort `val` into one type-based container by variant (and, for
`Signal`s, by visibility), and insert it into `namespace`; an existing
binding of the same key is silently overwritten (Python dict assignment).
The caller guarantees `val.name` is set. The `val._parent_module = module`
back-reference mutates `val`, not the module state, and is not modelled. -/
def _add (m : HdlModule) (v : ModuleAttr) : HdlModule :=
  match v with
  | .signal s =>
      if s.vis = Visibility.port then
        { m with ns := m.ns.update s.name v, ports := m.ports.update s.name v }
      else
        { m with ns := m.ns.update s.name v, signals := m.signals.update s.name v }
  | .inst n => { m with instances := m.instances.update n v, ns := m.ns.update n v }
  | .instArray n => { m with instarrays := m.instarrays.update n v, ns := m.ns.update n v }
  | .instBundle n => { m with instbundles := m.instbundles.update n v, ns := m.ns.update n v }
  | .bundleInst n => { m with bundles := m.bundles.update n v, ns := m.ns.update n v }

/-- Embedding of `Module.add` (`module.py`, lines 94-129): exactly one of
the two name sources (the `name` argument, `val.name`) must be set; with
both unset or both set it raises; otherwise the resolved name is written
into `val` and `_add` runs. Returns the (possibly renamed) value, as the
source returns `val`. -/
def HdlModule.add (m : HdlModule) (v : ModuleAttr) (nm : Option String) :
    Except Err (HdlModule × ModuleAttr) :=
  if nm = none ∧ v.name = none then .error .anonymousAttr
  else if nm ≠ none ∧ v.name ≠ none then .error .namingConflict
  else
    let v2 := if nm ≠ none then v.withName nm else v
    .ok (_add m v2, v2)

/-- Embedding of `Module.get` (`module.py`, lines 131-136): lookup solely
in `namespace`. -/
def HdlModule.get (m : HdlModule) (n : String) : Option ModuleAttr :=
  m.ns (some n)

/-- The protected attribute names of `Module.__setattr__`. -/
def bannedNames : List String :=
  [r"ports", r"signals", r"instances", r"instarrays", r"instbundles",
   r"bundles", r"namespace", r"add", r"get"]

/-- Python `key.startswith("_")`: the key begins with an underscore. -/
def startsWithUnderscore (key : String) : Bool :=
  match key.data with
  | [] => false
  | c :: _ => c == '_'

/-- Embedding of `Module.__setattr__` (`module.py`, lines 148-180) for the
post-bootstrap phase. Keys starting with an underscore and the key `name`
are plain Python field sets that leave the HDL collections untouched
(modelled as returning the state unchanged); protected names raise;
every other key is written into `val.name` unconditionally — the source
performs no check against a pre-existing `val.name` — and `_add` runs. -/
def HdlModule.setattr (m : HdlModule) (key : String) (v : ModuleAttr) :
    Except Err HdlModule :=
  if startsWithUnderscore key then .ok m
  else if bannedNames.contains key then .error .protectedAttr
  else if key = ("name") then .ok m
  else .ok (_add m (v.withName (some key)))

/-- The six sub-collections, as routing targets. -/
inductive Route
  | ports
  | signals
  | instances
  | instarrays
  | instbundles
  | bundles
deriving DecidableEq

/-- The sub-collection `_add` chooses for a value: its variant, plus
visibility for `Signal`s. -/
def route : ModuleAttr → Route
  | .signal s => if s.vis = Visibility.port then .ports else .signals
  | .inst _ => .instances
  | .instArray _ => .instarrays
  | .instBundle _ => .instbundles
  | .bundleInst _ => .bundles

/-- Project a sub-collection out of a module state. -/
def coll : Route → HdlModule → NameMap
  | .ports, m => m.ports
  | .signals, m => m.signals
  | .instances, m => m.instances
  | .instarrays, m => m.instarrays
  | .instbundles, m => m.instbundles
  | .bundles, m => m.bundles

/-- Well-routedness: every entry of every sub-collection sits in the
collection `route` picks for it. `_add` only ever inserts a value into
its routed collection, so every reachable `Module` state satisfies this. -/
def Routed (m : HdlModule) : Prop :=
  ∀ r k v, coll r m k = some v → route v = r

/-- Attribute names used by concrete witnesses below. -/
def xKey : String := "x"

def yKey : String := "y"

def s1Key : String := "s1"

/-- A concrete port-visibility signal named `s1`. -/
def sigPort1 : ModuleAttr := .signal ⟨some s1Key, Visibility.port, 4⟩

/-- An anonymous internal signal, for the witnesses. -/
def sigAnon : ModuleAttr := .signal ⟨none, Visibility.internal, 1⟩

/-- A signal already named `y`. -/
def sigY : ModuleAttr := .signal ⟨some yKey, Visibility.internal, 1⟩

/-- An instance named `x`. -/
def instX : ModuleAttr := .inst (some xKey)

/-- A non-port signal named `x`. -/
def sigX : ModuleAttr := .signal ⟨some xKey, Visibility.internal, 1⟩

/-- The bijective-union invariant of spec section 3: every sub-collection
entry appears in `namespace` under the same key with the same value, and
every `namespace` entry appears in exactly one sub-collection under the
same key. -/
def BijUnion (m : HdlModule) : Prop :=
  (∀ r k v, coll r m k = some v → m.ns k = some v)
  ∧ (∀ k v, m.ns k = some v → ∃! r, coll r m k = some v)

/-- A module populated by a sequence of (name-resolved) `_add` calls,
the shared implementation of both `Module.add` and attribute assignment. -/
def build (l : List ModuleAttr) : HdlModule :=
  l.foldl _add (HdlModule.new none)

/-- The module obtained by binding `x` to a signal and then rebinding it
to an instance. -/
def mStale : HdlModule :=
  _add (_add (HdlModule.new none) sigX) instX

/-- The Python runtime types relevant to the `isinstance` check of
`ExternalModuleCall.__post_init_post_parse__`: `dict`, a subclass of
`dict` (such as `collections.OrderedDict`), an hdl21 `paramclass`, and an
unrelated type. -/
inductive PyType
  | dict
  | odict
  | paramsA
  | floatTy
deriving DecidableEq

/-- Python's subclass relation on this universe: reflexive, plus
`OrderedDict` is a subclass of `dict`. -/
def PyType.isSubclassOf (a b : PyType) : Bool :=
  if a = b then true
  else if a = PyType.odict ∧ b = PyType.dict then true
  else false

/-- `isinstance(v, T)`: the runtime type of `v` is `T` or a subclass of
`T` — Python's check accepts subclass instances. -/
def isinstance (ty target : PyType) : Bool :=
  ty.isSubclassOf target

/-- Modelled from the spec: `isparamclass` (from `hdl21.params`, not under
`src/`) recognizes `@paramclass` types. -/
def isparamclass : PyType → Bool
  | .paramsA => true
  | _ => false

/-- `ExternalModule`: name, ordered ports, declared parameter type. -/
structure ExternalModule where
  name : String
  port_list : List Signal
  paramtype : PyType
deriving DecidableEq

/-- `ExternalModule.__post_init__`'s parameter-type validity check:
a `paramclass` or the built-in `dict`. -/
def ExternalModule.paramtypeValid (em : ExternalModule) : Bool :=
  isparamclass em.paramtype || em.paramtype == PyType.dict

/-- `ExternalModuleCall`: an `ExternalModule` paired with a parameter
value, of which `__post_init_post_parse__` observes only the runtime
type, here the `params` field. -/
structure ExternalModuleCall where
  module : ExternalModule
  params : PyType
deriving DecidableEq

/-- Embedding of `ExternalModuleCall.__post_init_post_parse__`
(`module.py`, lines 363-367): raise unless
`isinstance(self.params, self.module.paramtype)`. -/
def ExternalModuleCall.create (em : ExternalModule) (paramsTy : PyType) :
    Except Err ExternalModuleCall :=
  if isinstance paramsTy em.paramtype then .ok ⟨em, paramsTy⟩
  else .error .paramTypeMismatch

/-- A `dict`-parameterized external module, as permitted by
`ExternalModule.__post_init__`. -/
def emDict : ExternalModule := ⟨xKey, [], PyType.dict⟩

/-- `Slice.__eq__`: `id(self) == id(other)` — identity is equality. -/
def Slice.eq (a b : Slice) : Bool :=
  a.oid == b.oid

/-- CPython's hash of a non-negative `int`: reduction modulo the Mersenne
prime `2^61 - 1` (on 64-bit builds); on object ids below the modulus it
is the identity. -/
def pyIntHash (n : Nat) : Nat :=
  n % (2 ^ 61 - 1)

/-- `Slice.__hash__`: `hash(id(self))`. -/
def Slice.hash (a : Slice) : Nat :=
  pyIntHash a.oid

/-! ## Theorems -/

example : _slice_inner (sliceOf 8 (.int (-1))) = .ok ⟨8, 7, none, 1⟩ := by rfl

example : _slice_inner (sliceOf 8 (.int 8)) = .error .outOfBounds := by rfl

example : _slice_inner (sliceOf 8 (.range (some 2) (some 6) none)) =
    .ok ⟨6, 2, none, 4⟩ := by rfl

example : _slice_inner (sliceOf 8 (.range (some 6) (some 2) (some (-1)))) =
    .ok ⟨7, 3, some (-1), -4⟩ := by rfl

example : _slice_inner (sliceOf 8 (.range (some 6) (some 2) none)) =
    .ok ⟨2, 6, none, -4⟩ := by rfl

/-- How `_add` transforms `namespace`: the new value is bound under its
name; all other keys are untouched. -/
theorem ns_add (m : HdlModule) (v : ModuleAttr) (k : Option String) :
    (_add m v).ns k = if k = v.name then some v else m.ns k := by
  cases v with
  | signal s =>
      by_cases h : s.vis = Visibility.port <;>
        simp [_add, ModuleAttr.name, NameMap.update, h]
  | inst n => simp [_add, ModuleAttr.name, NameMap.update]
  | instArray n => simp [_add, ModuleAttr.name, NameMap.update]
  | instBundle n => simp [_add, ModuleAttr.name, NameMap.update]
  | bundleInst n => simp [_add, ModuleAttr.name, NameMap.update]

/-- How `_add` transforms the six sub-collections: the value lands in the
collection `route` picks, under its name; every other (collection, key)
cell is untouched. -/
theorem coll_add (m : HdlModule) (v : ModuleAttr) (r : Route) (k : Option String) :
    coll r (_add m v) k =
      if r = route v ∧ k = v.name then some v else coll r m k := by
  cases v with
  | signal s =>
      by_cases h : s.vis = Visibility.port <;>
        cases r <;>
          simp [_add, route, coll, ModuleAttr.name, NameMap.update, h]
  | inst n => cases r <;> simp [_add, route, coll, ModuleAttr.name, NameMap.update]
  | instArray n => cases r <;> simp [_add, route, coll, ModuleAttr.name, NameMap.update]
  | instBundle n => cases r <;> simp [_add, route, coll, ModuleAttr.name, NameMap.update]
  | bundleInst n => cases r <;> simp [_add, route, coll, ModuleAttr.name, NameMap.update]

/-- Writing a value's own name back into it is the identity. -/
theorem withName_self (v : ModuleAttr) (n : String) (hn : v.name = some n) :
    v.withName (some n) = v := by
  cases v with
  | signal s =>
      cases s
      simp [ModuleAttr.name] at hn
      simp [ModuleAttr.withName, hn]
  | inst m => simp_all [ModuleAttr.name, ModuleAttr.withName]
  | instArray m => simp_all [ModuleAttr.name, ModuleAttr.withName]
  | instBundle m => simp_all [ModuleAttr.name, ModuleAttr.withName]
  | bundleInst m => simp_all [ModuleAttr.name, ModuleAttr.withName]

/-- C6: Integer-index slice resolution over a parent of width `W ≥ 0`
normalizes a negative index by adding `W`, errors with out-of-bounds
exactly when the normalized index is `≥ W` (so an index below `-W` does
not fail: there is no lower-bound check), and otherwise yields
`top = i+1`, `bot = i`, `step` absent, `width = 1` for the normalized `i`.
(The source checks the raw index before normalizing; for `W ≥ 0` that is
equivalent to checking the normalized index, as proved here.) -/
theorem C6_int_index (w i : Int) (hw : 0 ≤ w) :
    (_slice_inner (sliceOf w (.int i)) = .error .outOfBounds ↔ w ≤ normIdx w i)
    ∧ (normIdx w i < w →
        _slice_inner (sliceOf w (.int i)) =
          .ok ⟨normIdx w i + 1, normIdx w i, none, 1⟩)
    ∧ (i < -w → _slice_inner (sliceOf w (.int i)) =
          .ok ⟨normIdx w i + 1, normIdx w i, none, 1⟩) := by
  have hnorm : normIdx w i = if i < 0 then i + w else i := rfl
  by_cases hI : w ≤ i
  · have hi0 : ¬ i < 0 := by omega
    refine ⟨?_, ?_, ?_⟩
    · simp [_slice_inner, sliceOf, hI, hnorm, hi0]
    · intro hlt
      rw [hnorm] at hlt
      simp [hi0] at hlt
      omega
    · intro hlow
      omega
  · have hok : ∀ j : Int, j = normIdx w i →
        _slice_inner (sliceOf w (.int i)) = .ok ⟨j + 1, j, none, 1⟩ := by
      intro j hj
      by_cases hi0 : i < 0
      · simp [_slice_inner, sliceOf, hI, hi0, hj, hnorm]
      · simp [_slice_inner, sliceOf, hI, hi0, hj, hnorm]
    refine ⟨?_, fun _ => hok _ rfl, fun _ => hok _ rfl⟩
    constructor
    · intro herr
      rw [hok _ rfl] at herr
      exact absurd herr (by simp)
    · intro hge
      rw [hnorm] at hge
      by_cases hi0 : i < 0 <;> simp [hi0] at hge <;> omega

/-- C6 witness: at `W = 8`, index `-1` resolves to
`{top: 8, bot: 7, width: 1}`, index `8` fails out-of-bounds, and index
`-9` (below `-W`) does not fail. -/
theorem C6_int_index_witness :
    _slice_inner (sliceOf 8 (.int (-1))) = .ok ⟨8, 7, none, 1⟩
    ∧ _slice_inner (sliceOf 8 (.int 8)) = .error .outOfBounds
    ∧ _slice_inner (sliceOf 8 (.int (-9))) = .ok ⟨0, -1, none, 1⟩ := by
  refine ⟨?_, ?_, ?_⟩
  · exact (C6_int_index 8 (-1) (by decide)).2.1 (by decide)
  · exact ((C6_int_index 8 8 (by decide)).1).mpr (by decide)
  · exact (C6_int_index 8 (-9) (by decide)).2.2 (by decide)

/-- C1: the claim says the negative-step range slice `slice(6,2,-1)` on a
parent of width 8 resolves with `width = 4 = (top − bot)/|step|`. The
code resolves `top = 7`, `bot = 3` as claimed, but divides the span by
the *signed* step (`width = (top - bot) // stepsz` with `stepsz = -1`),
producing `width = -4`, the negation of `(top − bot)/|step|`. -/
theorem C1_negative_step_width :
    _slice_inner (sliceOf 8 (.range (some 6) (some 2) (some (-1)))) =
      .ok ⟨7, 3, some (-1), -4⟩
    ∧ (-4 : Int) ≠ (7 - 3) / 1 := by
  exact ⟨rfl, by decide⟩

/-- C4: the claim says every resolved slice has a non-negative width. The
positive-step range slice `[6:2]` (start 6, stop 2, step absent) on a
parent of width 8 resolves to `top = 2`, `bot = 6`,
`width = (2 - 6) // 1 = -4 < 0`: the code never clamps an empty or
reversed span, so the cached width is negative. -/
theorem C4_width_negative :
    _slice_inner (sliceOf 8 (.range (some 6) (some 2) none)) =
      .ok ⟨2, 6, none, -4⟩
    ∧ ((-4 : Int) < 0) := by
  exact ⟨rfl, by decide⟩

/-- A freshly constructed `Module` is well-routed (all collections empty). -/
theorem routed_new (nm : Option String) : Routed (HdlModule.new nm) := by
  intro r k v h
  cases r <;> simp [coll, HdlModule.new] at h

/-- `_add` preserves well-routedness. -/
theorem routed_add (m : HdlModule) (v : ModuleAttr) (hm : Routed m) :
    Routed (_add m v) := by
  intro r k w h
  rw [coll_add] at h
  by_cases hc : r = route v ∧ k = v.name
  · rw [if_pos hc] at h
    injection h with h
    rw [← h, hc.1]
  · rw [if_neg hc] at h
    exact hm r k w h

/-- `(v.withName nm).name = nm`: renaming really sets the name. -/
theorem name_withName (v : ModuleAttr) (nm : Option String) :
    (v.withName nm).name = nm := by
  cases v <;> rfl

/-- C2: for a well-routed module `m` and a value `v` with resolved name
`n`, `m.add v` succeeds and in the new state: `get n` is `v`,
`namespace[n]` is `v`, `v` sits under `n` in the sub-collection chosen by
its variant/visibility, and in no other sub-collection; attribute
assignment `m.n = v` reaches the identical state. -/
theorem C2_add_routing (m : HdlModule) (v : ModuleAttr) (n : String)
    (hm : Routed m) (hn : v.name = some n) :
    m.add v none = .ok (_add m v, v)
    ∧ (_add m v).get n = some v
    ∧ (_add m v).ns (some n) = some v
    ∧ coll (route v) (_add m v) (some n) = some v
    ∧ (∀ r, r ≠ route v → coll r (_add m v) (some n) ≠ some v)
    ∧ (bannedNames.contains n = false → startsWithUnderscore n = false →
        n ≠ ("name") → m.setattr n v = .ok (_add m v)) := by
  have hns : (_add m v).ns (some n) = some v := by
    rw [ns_add, hn, if_pos rfl]
  refine ⟨?_, hns, hns, ?_, ?_, ?_⟩
  · simp [HdlModule.add, hn]
  · rw [coll_add, if_pos ⟨rfl, hn.symm⟩]
  · intro r hr habs
    rw [coll_add, if_neg (fun hc => hr hc.1)] at habs
    exact hr (hm r (some n) v habs).symm
  · intro hb hu hk
    simp only [HdlModule.setattr, hu, hb, Bool.false_eq_true, if_neg, if_false]
    rw [if_neg hk, withName_self v n hn]

/-- C2 witness: adding the port signal `s1` to a fresh module binds it in
`get`, `namespace`, and the `ports` sub-collection, and in no other. -/
theorem C2_add_routing_witness :
    (HdlModule.new none).add sigPort1 none =
      .ok (_add (HdlModule.new none) sigPort1, sigPort1)
    ∧ (_add (HdlModule.new none) sigPort1).get s1Key = some sigPort1
    ∧ coll Route.ports (_add (HdlModule.new none) sigPort1) (some s1Key) =
        some sigPort1
    ∧ coll Route.signals (_add (HdlModule.new none) sigPort1) (some s1Key) ≠
        some sigPort1 := by
  have h := C2_add_routing (HdlModule.new none) sigPort1 s1Key (routed_new none) rfl
  exact ⟨h.1, h.2.1, h.2.2.2.1, h.2.2.2.2.1 Route.signals (by decide)⟩

/-- C8: `Module.add` raises whenever both name sources are set — even to
equal strings, the source compares only against `None` — and whenever
neither is; with exactly one source set it succeeds and returns the value
itself (Python mutates `val.name` in place and returns `val`; here the
returned value is `v` with its name set to the resolved name, which is
`v` itself when the name came from `v`). The source raises bare
`RuntimeError`s with two messages, modelled as the two `Err` labels. -/
theorem C8_add_name_sources (m : HdlModule) (v : ModuleAttr) (nm : Option String) :
    (nm ≠ none → v.name ≠ none → m.add v nm = .error .namingConflict)
    ∧ (nm = none → v.name = none → m.add v nm = .error .anonymousAttr)
    ∧ (∀ n2, nm = some n2 → v.name = none →
        m.add v nm = .ok (_add m (v.withName (some n2)), v.withName (some n2)))
    ∧ (nm = none → v.name ≠ none → m.add v nm = .ok (_add m v, v)) := by
  refine ⟨?_, ?_, ?_, ?_⟩
  · intro h1 h2
    simp [HdlModule.add, h1, h2]
  · intro h1 h2
    subst h1
    simp [HdlModule.add, h2]
  · intro n2 h1 h2
    subst h1
    simp [HdlModule.add, h2]
  · intro h1 h2
    subst h1
    simp [HdlModule.add, h2]

/-- C8 witness: both sources set (even to the same string) fails, neither
set fails, exactly one set succeeds. -/
theorem C8_add_name_sources_witness :
    (HdlModule.new none).add sigY (some yKey) = .error .namingConflict
    ∧ (HdlModule.new none).add sigY (some xKey) = .error .namingConflict
    ∧ (HdlModule.new none).add sigAnon none = .error .anonymousAttr
    ∧ (HdlModule.new none).add sigAnon (some xKey) =
        .ok (_add (HdlModule.new none) (sigAnon.withName (some xKey)),
          sigAnon.withName (some xKey))
    ∧ (HdlModule.new none).add sigY none = .ok (_add (HdlModule.new none) sigY, sigY) := by
  refine ⟨?_, ?_, ?_, ?_, ?_⟩
  · exact (C8_add_name_sources (HdlModule.new none) sigY (some yKey)).1
      (by decide) (by decide)
  · exact (C8_add_name_sources (HdlModule.new none) sigY (some xKey)).1
      (by decide) (by decide)
  · exact (C8_add_name_sources (HdlModule.new none) sigAnon none).2.1 rfl rfl
  · exact (C8_add_name_sources (HdlModule.new none) sigAnon (some xKey)).2.2.1
      xKey rfl rfl
  · exact (C8_add_name_sources (HdlModule.new none) sigY none).2.2.2 rfl (by decide)

/-- C10: rebinding a name raises no error: with `v1.name = v2.name = some n`,
both `add; add` and the two attribute assignments `m.n = v1; m.n = v2`
succeed, and afterwards `get n` and `namespace[n]` hold `v2` — the earlier
binding is silently replaced. -/
theorem C10_rebind (m : HdlModule) (v1 v2 : ModuleAttr) (n : String)
    (h1 : v1.name = some n) (h2 : v2.name = some n)
    (hb : bannedNames.contains n = false) (hu : startsWithUnderscore n = false)
    (hk : n ≠ ("name")) :
    m.add v1 none = .ok (_add m v1, v1)
    ∧ (_add m v1).add v2 none = .ok (_add (_add m v1) v2, v2)
    ∧ m.setattr n v1 = .ok (_add m v1)
    ∧ (_add m v1).setattr n v2 = .ok (_add (_add m v1) v2)
    ∧ (_add (_add m v1) v2).get n = some v2
    ∧ (_add (_add m v1) v2).ns (some n) = some v2 := by
  have hns : (_add (_add m v1) v2).ns (some n) = some v2 := by
    rw [ns_add, h2, if_pos rfl]
  refine ⟨by simp [HdlModule.add, h1], by simp [HdlModule.add, h2], ?_, ?_, hns, hns⟩
  · simp only [HdlModule.setattr, hu, hb, Bool.false_eq_true, if_false]
    rw [if_neg hk, withName_self v1 n h1]
  · simp only [HdlModule.setattr, hu, hb, Bool.false_eq_true, if_false]
    rw [if_neg hk, withName_self v2 n h2]

/-- C10 witness: binding `x` to a signal and then to an instance raises no
error, and `get x` afterwards yields the instance. -/
theorem C10_rebind_witness :
    (HdlModule.new none).add sigX none = .ok (_add (HdlModule.new none) sigX, sigX)
    ∧ (_add (HdlModule.new none) sigX).add instX none =
        .ok (_add (_add (HdlModule.new none) sigX) instX, instX)
    ∧ (HdlModule.new none).setattr xKey sigX = .ok (_add (HdlModule.new none) sigX)
    ∧ (_add (HdlModule.new none) sigX).get xKey = some sigX
    ∧ (_add (_add (HdlModule.new none) sigX) instX).get xKey = some instX := by
  have h := C10_rebind (HdlModule.new none) sigX instX xKey rfl rfl
    (by decide) (by decide) (by decide)
  exact ⟨h.1, h.2.1, h.2.2.1, rfl, h.2.2.2.2.1⟩

/-- C3 counterexample: assigning under key `x` a signal already named `y`
(`y ≠ x`, both non-null) raises no error at all — `__setattr__` performs
no name-conflict check — where the claim demands a ConflictingName
failure. The value's name is silently overwritten with `x`. -/
theorem C3_counterexample :
    ((HdlModule.new none).setattr xKey sigY).isOk = true
    ∧ ModuleAttr.name sigY = some yKey
    ∧ yKey ≠ xKey
    ∧ (HdlModule.new none).setattr xKey sigY =
        .ok (_add (HdlModule.new none) (sigY.withName (some xKey))) := by
  exact ⟨rfl, rfl, by decide, rfl⟩

/-- C3 amended: for every non-underscore, non-protected key other than
`name`, attribute assignment succeeds for every attribute value,
whatever name the value already carries: the key is written over
`val.name` unconditionally and the (renamed) value is inserted under the
key. -/
theorem C3_setattr_overwrites_name (m : HdlModule) (key : String) (v : ModuleAttr)
    (hu : startsWithUnderscore key = false) (hb : bannedNames.contains key = false)
    (hk : key ≠ ("name")) :
    m.setattr key v = .ok (_add m (v.withName (some key)))
    ∧ (v.withName (some key)).name = some key
    ∧ (_add m (v.withName (some key))).ns (some key) = some (v.withName (some key)) := by
  refine ⟨?_, name_withName v (some key), ?_⟩
  · simp only [HdlModule.setattr, hu, hb, Bool.false_eq_true, if_false]
    rw [if_neg hk]
  · rw [ns_add, name_withName, if_pos rfl]

/-- C3 amended witness: the `y`-named signal assigned under `x` lands in
the namespace under `x`, renamed to `x`. -/
theorem C3_setattr_overwrites_name_witness :
    (HdlModule.new none).setattr xKey sigY =
      .ok (_add (HdlModule.new none) (sigY.withName (some xKey)))
    ∧ (sigY.withName (some xKey)).name = some xKey
    ∧ (_add (HdlModule.new none) (sigY.withName (some xKey))).ns (some xKey) =
        some (sigY.withName (some xKey)) :=
  C3_setattr_overwrites_name (HdlModule.new none) xKey sigY
    (by decide) (by decide) (by decide)

/-- C5 counterexample: after `add` of a signal named `x` and then an
instance named `x`, the `signals` sub-collection still holds the stale
entry `x ↦ sigX` while `namespace[x]` is the instance, so the
bijective-union invariant fails on this reachable state. -/
theorem C5_counterexample :
    coll Route.signals mStale (some xKey) = some sigX
    ∧ mStale.ns (some xKey) = some instX
    ∧ sigX ≠ instX
    ∧ ¬ BijUnion mStale := by
  refine ⟨rfl, rfl, by decide, ?_⟩
  intro h
  have h1 : mStale.ns (some xKey) = some sigX :=
    h.1 Route.signals (some xKey) sigX rfl
  exact absurd h1 (by decide)

/-- `_add` preserves the invariant when the added value's name is not yet
bound in `namespace`. -/
theorem bijUnion_add (m : HdlModule) (v : ModuleAttr)
    (hm : BijUnion m) (hfresh : m.ns v.name = none) : BijUnion (_add m v) := by
  obtain ⟨h1, h2⟩ := hm
  constructor
  · intro r k w h
    rw [coll_add] at h
    rw [ns_add]
    by_cases hc : r = route v ∧ k = v.name
    · rw [if_pos hc] at h
      rw [if_pos hc.2]
      exact h
    · rw [if_neg hc] at h
      have hm1 := h1 r k w h
      by_cases hk : k = v.name
      · rw [hk, hfresh] at hm1
        cases hm1
      · rw [if_neg hk]
        exact hm1
  · intro k w h
    rw [ns_add] at h
    by_cases hk : k = v.name
    · rw [if_pos hk] at h
      injection h with hvw
      refine ⟨route v, ?_, ?_⟩
      · show coll (route v) (_add m v) k = some w
        rw [coll_add, if_pos ⟨rfl, hk⟩, hvw]
      · intro r hr
        rw [coll_add] at hr
        by_cases hc : r = route v ∧ k = v.name
        · exact hc.1
        · rw [if_neg hc] at hr
          have := h1 r k w hr
          rw [hk, hfresh] at this
          cases this
    · rw [if_neg hk] at h
      obtain ⟨r0, hr0, hr0u⟩ := h2 k w h
      refine ⟨r0, ?_, ?_⟩
      · show coll r0 (_add m v) k = some w
        rw [coll_add, if_neg (fun hc => hk hc.2)]
        exact hr0
      · intro r hr
        rw [coll_add, if_neg (fun hc => hk hc.2)] at hr
        exact hr0u r hr

/-- Folding `_add` over values with pairwise-distinct names, none bound
yet, preserves the invariant. -/
theorem bijUnion_foldl (l : List ModuleAttr) : ∀ m : HdlModule,
    BijUnion m → (∀ v ∈ l, m.ns v.name = none) →
    (l.map ModuleAttr.name).Nodup → BijUnion (l.foldl _add m) := by
  induction l with
  | nil =>
      intro m hm _ _
      simpa using hm
  | cons v t ih =>
      intro m hm hfresh hnd
      simp only [List.map_cons, List.nodup_cons] at hnd
      simp only [List.foldl_cons]
      apply ih (_add m v) (bijUnion_add m v hm (hfresh v (by simp)))
      · intro u hu
        rw [ns_add]
        have hne : u.name ≠ v.name := by
          intro he
          exact hnd.1 (he ▸ List.mem_map.mpr ⟨u, hu, rfl⟩)
        rw [if_neg hne]
        exact hfresh u (List.mem_cons_of_mem _ hu)
      · exact hnd.2

/-- C5 amended: the bijective-union invariant holds after any sequence of
adds whose resolved names are pairwise distinct (no rebinding); as
`C5_counterexample` shows, rebinding a name with a value routed to a
different sub-collection leaves a stale entry behind and breaks it. -/
theorem C5_bij_union_distinct (l : List ModuleAttr)
    (hnd : (l.map ModuleAttr.name).Nodup) : BijUnion (build l) := by
  apply bijUnion_foldl l (HdlModule.new none) ?_ ?_ hnd
  · constructor
    · intro r k v h
      cases r <;> simp [coll, HdlModule.new] at h
    · intro k v h
      simp [HdlModule.new] at h
  · intro v _
    rfl

/-- C5 amended witness: a signal `x` and an instance `y` added to a fresh
module leave it satisfying the bijective-union invariant. -/
theorem C5_bij_union_distinct_witness :
    (([sigX, .inst (some yKey)].map ModuleAttr.name).Nodup)
    ∧ BijUnion (build [sigX, .inst (some yKey)]) :=
  ⟨by decide, C5_bij_union_distinct [sigX, .inst (some yKey)] (by decide)⟩

/-- C7 counterexample: `emDict` declares parameter type `dict` (a valid
declaration), and a parameter value whose runtime type is a *subclass*
of `dict` — not exactly `dict` — is accepted: `isinstance` tolerates
subclasses, so construction succeeds where the claim demands
ParamTypeMismatch. -/
theorem C7_counterexample :
    emDict.paramtypeValid = true
    ∧ PyType.odict ≠ emDict.paramtype
    ∧ ExternalModuleCall.create emDict PyType.odict = .ok ⟨emDict, PyType.odict⟩ := by
  exact ⟨rfl, by decide, rfl⟩

/-- C7 amended: `ExternalModuleCall` construction fails with
ParamTypeMismatch exactly when the parameter value is not an instance of
the declared parameter type in Python's `isinstance` sense (subclass
instances are accepted); in particular an exact runtime-type match
always succeeds. -/
theorem C7_isinstance_check (em : ExternalModule) (pty : PyType) :
    (isinstance pty em.paramtype = false →
      ExternalModuleCall.create em pty = .error .paramTypeMismatch)
    ∧ (isinstance pty em.paramtype = true →
      ExternalModuleCall.create em pty = .ok ⟨em, pty⟩)
    ∧ (pty = em.paramtype → ExternalModuleCall.create em pty = .ok ⟨em, pty⟩) := by
  refine ⟨?_, ?_, ?_⟩
  · intro h
    simp [ExternalModuleCall.create, h]
  · intro h
    simp [ExternalModuleCall.create, h]
  · intro h
    simp [ExternalModuleCall.create, isinstance, PyType.isSubclassOf, h]

/-- C7 amended witness: an exact `dict` parameter succeeds, an unrelated
runtime type fails with ParamTypeMismatch. -/
theorem C7_isinstance_check_witness :
    ExternalModuleCall.create emDict PyType.dict = .ok ⟨emDict, PyType.dict⟩
    ∧ ExternalModuleCall.create emDict PyType.odict = .ok ⟨emDict, PyType.odict⟩
    ∧ ExternalModuleCall.create emDict PyType.floatTy = .error .paramTypeMismatch := by
  refine ⟨?_, ?_, ?_⟩
  · exact (C7_isinstance_check emDict PyType.dict).2.2 (by decide)
  · exact (C7_isinstance_check emDict PyType.odict).2.1 (by decide)
  · exact (C7_isinstance_check emDict PyType.floatTy).1 (by decide)

/-- C9: two distinct `Slice` objects (distinct object identities, as every
two live CPython objects have, with ids below the hash modulus as any
64-bit address is) built from identical `(parent, index)` arguments
compare unequal and hash differently, and every `Slice` equals itself:
equality and hashing are by object identity. -/
theorem C9_identity_semantics (a b : Slice)
    (hoid : a.oid ≠ b.oid) (_hpar : a.parent = b.parent) (_hidx : a.index = b.index)
    (ha : a.oid < 2 ^ 61 - 1) (hb : b.oid < 2 ^ 61 - 1) :
    Slice.eq a b = false ∧ Slice.hash a ≠ Slice.hash b ∧ Slice.eq a a = true := by
  refine ⟨?_, ?_, ?_⟩
  · simp [Slice.eq, hoid]
  · simp only [Slice.hash, pyIntHash, Nat.mod_eq_of_lt ha, Nat.mod_eq_of_lt hb]
    exact hoid
  · simp [Slice.eq]

/-- C9 witness: two distinct slice objects over the same width-8 parent
with the same index `0` are unequal and hash differently. -/
theorem C9_identity_semantics_witness :
    Slice.eq ⟨1, ⟨none, Visibility.internal, 8⟩, .int 0⟩
        ⟨2, ⟨none, Visibility.internal, 8⟩, .int 0⟩ = false
    ∧ Slice.hash ⟨1, ⟨none, Visibility.internal, 8⟩, .int 0⟩ ≠
        Slice.hash ⟨2, ⟨none, Visibility.internal, 8⟩, .int 0⟩
    ∧ Slice.eq ⟨1, ⟨none, Visibility.internal, 8⟩, .int 0⟩
        ⟨1, ⟨none, Visibility.internal, 8⟩, .int 0⟩ = true :=
  C9_identity_semantics ⟨1, ⟨none, Visibility.internal, 8⟩, .int 0⟩
    ⟨2, ⟨none, Visibility.internal, 8⟩, .int 0⟩
    (by decide) rfl rfl (by decide) (by decide)
